import Mathlib

/- Verification development for the magpie 16-bit virtual computer.

The Rust sources (src/processor.rs, src/mem_map.rs, src/main.rs) are embedded
shallowly: u16 values are Nat with explicit reduction modulo 65536 where the
source wraps; u8 values are Nat with explicit reduction modulo 256; the
register file [u16; 16] is a function Fin 16 → Nat; fallible operations
(the unchecked u16 additions in the link computations, which panic on
overflow in checked builds) return Option.  The processor is generic over
the Memory trait, embedded as a record of operations MemOps; the concrete
MemoryMap of mem_map.rs instantiates it.  Host I/O held by the Serial
device is modelled by an output byte list and by passing the bytes
available on the host input as an argument to Serial.clock. -/

/- Combines a little-endian byte pair into a 16-bit value, as
u16::from_le_bytes does. -/
def le16 (x : Nat × Nat) : Nat := x.1 + 256 * x.2

/- Splits a 16-bit value into its little-endian byte pair, as
u16::to_le_bytes does. -/
def toLeBytes (v : Nat) : Nat × Nat := (v % 256, v / 256)

/- Sign-extension of the low byte to 16 bits: the Rust idiom
`as i8 as i16 as u16`. -/
def sext8 (b : Nat) : Nat :=
  if b % 256 < 128 then b % 256 else b % 256 + 0xff00

/- Arithmetic (sign-propagating) right shift of a 16-bit value, as
`(x as i16).overflowing_shr(s).0 as u16` with the shift amount already
reduced modulo 16. -/
def asr16 (x s : Nat) : Nat :=
  if x < 32768 then x >>> s else 65535 - ((65535 - x) >>> s)

/- u16::carrying_add: the wrapped sum and the carry-out. -/
def carrying_add (a b : Nat) (c : Bool) : Nat × Bool :=
  ((a + b + c.toNat) % 65536, decide (65536 ≤ a + b + c.toNat))

/- u16::borrowing_sub: the wrapped difference and the borrow-out. -/
def borrowing_sub (a b : Nat) (c : Bool) : Nat × Bool :=
  (Int.toNat (((a : Int) - (b : Int) - (c.toNat : Int)) % 65536),
   decide ((a : Int) < (b : Int) + (c.toNat : Int)))

/- The unchecked u16 addition `+` of the Rust source: defined only while
the mathematical sum fits in 16 bits; a none models the arithmetic
overflow panic of checked builds. -/
def checkedAdd16 (a b : Nat) : Option Nat :=
  if a + b ≤ 65535 then some (a + b) else none

/- Index into the register file, as `registers[(id & 0xf) as usize]`. -/
def regIdx (id : Nat) : Fin 16 := ⟨id % 16, by omega⟩

/- The ShouldWriteFlags enum of processor.rs. -/
inductive ShouldWriteFlags where
  | No
  | No2
  | No3
  | Yes
deriving DecidableEq

/- ShouldWriteFlags::cycle, exactly as the source match reads: note that
the source sends No to No3 (not to No2). -/
def ShouldWriteFlags.cycle : ShouldWriteFlags → ShouldWriteFlags
  | .No => .No3
  | .No2 => .No3
  | .No3 => .Yes
  | .Yes => .Yes

/- The Processor struct of processor.rs.  PC is register 15, the link
register is register 14. -/
structure Processor where
  registers : Fin 16 → Nat
  zero : Bool
  negative : Bool
  carry : Bool
  interrupts : Bool
  iret : Nat
  fault : Bool
  should_write_flags : ShouldWriteFlags

/- Processor::new. -/
def Processor.new : Processor :=
  { registers := fun _ => 0, zero := false, negative := false,
    carry := false, interrupts := false, iret := 0, fault := false,
    should_write_flags := .Yes }

/- The Memory trait of main.rs: read is &mut self in the source (a read
at SERIAL_RX pops the FIFO), so every operation returns the successor
memory. -/
structure MemOps (M : Type) where
  read : M → Nat → (Nat × Nat) × M
  read8 : M → Nat → Nat × M
  write : M → Nat → Nat × Nat → M
  write8 : M → Nat → Nat → M

/- Processor::get_flags. -/
def Processor.get_flags (p : Processor) : Nat :=
  p.zero.toNat ||| (p.negative.toNat <<< 1) ||| (p.carry.toNat <<< 2) |||
    (p.interrupts.toNat <<< 3) ||| (p.fault.toNat <<< 4)

/- Processor::set_flags: unpacks the five flag bits and demotes
should_write_flags to No. -/
def Processor.set_flags (p : Processor) (f : Nat) : Processor :=
  { p with zero := f &&& 1 != 0, negative := f &&& 2 != 0,
           carry := f &&& 4 != 0, interrupts := f &&& 8 != 0,
           fault := f &&& 16 != 0, should_write_flags := .No }

/- Processor::read_reg: register 0 reads as zero. -/
def Processor.read_reg (p : Processor) (id : Nat) : Nat :=
  if id = 0 then 0 else p.registers (regIdx id)

/- Processor::write_reg_no_flags. -/
def Processor.write_reg_no_flags (p : Processor) (id val : Nat) : Processor :=
  { p with registers := Function.update p.registers (regIdx id) val }

/- Processor::write_reg: stores and, when should_write_flags is Yes,
updates the zero and negative flags from the stored value. -/
def Processor.write_reg (p : Processor) (id val : Nat) : Processor :=
  let p1 := p.write_reg_no_flags id val
  if p1.should_write_flags = ShouldWriteFlags.Yes then
    { p1 with zero := val == 0, negative := decide (32768 ≤ val) }
  else p1

/- Processor::reset: load PC from RESET_VEC = 0xfffe. -/
def Processor.reset {M : Type} (mo : MemOps M) (p : Processor) (m : M) :
    Processor × M :=
  let r := mo.read m 0xfffe
  ({ p with registers := Function.update p.registers (regIdx 15) (le16 r.1) },
   r.2)

/- Processor::nmi: save PC into iret, load PC from NMI_VEC = 0xfffc minus
two (compensating the post-increment), disable interrupts. -/
def Processor.nmi {M : Type} (mo : MemOps M) (p : Processor) (m : M) :
    Processor × M :=
  let r := mo.read m 0xfffc
  let regs := Function.update p.registers (regIdx 15) ((le16 r.1 + 65534) % 65536)
  ({ p with iret := p.registers (regIdx 15), registers := regs,
            interrupts := false },
   r.2)

/- Processor::irq: gated on interrupts && should_write_flags == Yes; on
entry it saves PC - 2 into iret, loads PC from IRQ_VEC = 0xfffa and
disables interrupts; otherwise it does nothing at all. -/
def Processor.irq {M : Type} (mo : MemOps M) (p : Processor) (m : M) :
    Processor × M :=
  if p.interrupts && decide (p.should_write_flags = ShouldWriteFlags.Yes) then
    let p1 : Processor :=
      { p with iret := (p.registers (regIdx 15) + 65534) % 65536 }
    let r := mo.read m 0xfffa
    let regs := Function.update p1.registers (regIdx 15) (le16 r.1)
    ({ p1 with registers := regs, interrupts := false }, r.2)
  else (p, m)

/- The branch condition of Processor::jump, selected by bits 4..6. -/
def Processor.jumpCond (p : Processor) (instr : Nat) : Bool :=
  if (instr &&& 0x70) >>> 4 = 0 then true
  else if (instr &&& 0x70) >>> 4 = 1 then p.zero
  else if (instr &&& 0x70) >>> 4 = 2 then !p.zero
  else if (instr &&& 0x70) >>> 4 = 3 then p.negative
  else false

/- Processor::jump: when taken, computes the link PC + 2 with the
unchecked addition, writes it through write_reg (so flags may update),
and loads PC from R[ra] minus two. -/
def Processor.jump (p : Processor) (instr ra rl : Nat) : Option Processor :=
  if p.jumpCond instr then
    (checkedAdd16 (p.registers (regIdx 15)) 2).map fun link =>
      let p1 := p.write_reg rl link
      let address := p1.read_reg ra
      let regs := Function.update p1.registers (regIdx 15) ((address + 65534) % 65536)
      { p1 with registers := regs }
  else some p

/- Processor::add_sub: ops 0..3 of the arithmetic family.  The carry-in
is the carry flag for odd ops, and the subtraction borrow-in is the
negated carry-in, with the borrow-out returned negated. -/
def Processor.add_sub (p : Processor) (op lhs rhs : Nat) : Nat × Bool :=
  let cin : Bool := decide (op &&& 1 ≠ 0) && p.carry
  if op &&& 2 = 0 then carrying_add lhs rhs cin
  else
    let vb := borrowing_sub lhs rhs (!cin)
    (vb.1, !vb.2)

/- Processor::arithmetic: the 0x9 long-op family.  Shift amounts are
reduced modulo 16 as the Rust overflowing/wrapping shifts do. -/
def Processor.arithmetic (p : Processor) (instr rs rd : Nat) : Processor :=
  let src := p.read_reg rs
  let dest := p.read_reg rd
  let op := (instr &&& 0xf0) >>> 4
  if op ≤ 3 then
    let vc := p.add_sub op src dest
    ({ p with carry := vc.2 } : Processor).write_reg rd vc.1
  else if op = 4 then p.write_reg rd (src &&& dest)
  else if op = 5 then p.write_reg rd (dest ^^^ 65535)
  else if op = 6 then p.write_reg rd (src ||| dest)
  else if op = 7 then p.write_reg rd (src ^^^ dest)
  else if op = 8 then p.write_reg rd ((dest <<< (src % 16)) % 65536)
  else if op = 9 then p.write_reg rd (dest >>> (src % 16))
  else if op = 10 then p.write_reg rd ((dest <<< (src % 16)) % 65536)
  else if op = 11 then p.write_reg rd (asr16 dest (src % 16))
  else if op = 12 then p.write_reg rd ((dest <<< (src % 16)) % 65536)
  else if op = 13 then p.write_reg rd (dest >>> (src % 16))
  else if op = 14 then p.write_reg rd p.get_flags
  else (p.set_flags src).write_reg rd dest

/- Processor::push: write val little-endian at R[rs], then decrement the
pointer register by two without touching the flags (stacks grow down). -/
def Processor.push {M : Type} (mo : MemOps M) (p : Processor)
    (rs val : Nat) (m : M) : Processor × M :=
  let ptr := p.read_reg rs
  let m1 := mo.write m ptr (toLeBytes val)
  (p.write_reg_no_flags rs ((ptr + 65534) % 65536), m1)

/- Processor::pop: increment the pointer by two, read little-endian at
the new pointer, store the new pointer back without flag updates. -/
def Processor.pop {M : Type} (mo : MemOps M) (p : Processor) (rs : Nat)
    (m : M) : Nat × Processor × M :=
  let ptr := (p.read_reg rs + 2) % 65536
  let r := mo.read m ptr
  (le16 r.1, p.write_reg_no_flags rs ptr, r.2)

/- Processor::movement: push / pop / mov / msx, selected by bits 4..5. -/
def Processor.movement {M : Type} (mo : MemOps M) (p : Processor)
    (instr rs rd : Nat) (m : M) : Processor × M :=
  if (instr &&& 0x30) >>> 4 = 0 then p.push mo rs (p.read_reg rd) m
  else if (instr &&& 0x30) >>> 4 = 1 then
    let x := p.pop mo rs m
    (x.2.1.write_reg rd x.1, x.2.2)
  else if (instr &&& 0x30) >>> 4 = 2 then (p.write_reg rd (p.read_reg rs), m)
  else (p.write_reg rd (sext8 (p.read_reg rs)), m)

/- Processor::misc: psr / iret / read-flags / write-flags, selected by
bits 4..5. -/
def Processor.misc {M : Type} (mo : MemOps M) (p : Processor)
    (instr r1 r2 : Nat) (m : M) : Processor × M :=
  if (instr &&& 0x30) >>> 4 = 0 then p.push mo r1 p.iret m
  else if (instr &&& 0x30) >>> 4 = 1 then
    let x := p.pop mo r1 m
    let regs := Function.update x.2.1.registers (regIdx 15) x.1
    ({ x.2.1 with registers := regs, interrupts := true }, x.2.2)
  else if (instr &&& 0x30) >>> 4 = 2 then (p.write_reg r2 p.get_flags, m)
  else
    let p1 := p.set_flags (p.read_reg r1)
    ({ p1 with should_write_flags := .No }, m)

/- Processor::ld_st: the effective address is R[ra] + R[ro] wrapping, for
loads and stores alike; bit 1 selects byte access, bit 0 selects store. -/
def Processor.ld_st {M : Type} (mo : MemOps M) (p : Processor) (m : M)
    (instr ra ro rd : Nat) : Processor × M :=
  let addr := p.read_reg ra
  let offset := p.read_reg ro
  let eaddr := (addr + offset) % 65536
  if instr &&& 2 = 0 then
    if instr &&& 1 = 0 then
      let r := mo.read m eaddr
      (p.write_reg rd (le16 r.1), r.2)
    else (p, mo.write m eaddr (toLeBytes (p.read_reg rd)))
  else
    if instr &&& 1 = 0 then
      let r := mo.read8 m eaddr
      (p.write_reg rd r.1, r.2)
    else (p, mo.write8 m eaddr (p.read_reg rd % 256))

/- The taken/link pair of the relative-jump decode in
Processor::short_op, selected by the low two bits. -/
def Processor.rjmpTL (p : Processor) (instr : Nat) : Bool × Bool :=
  if instr &&& 3 = 0 then (true, false)
  else if instr &&& 3 = 1 then (true, true)
  else if instr &&& 3 = 2 then (p.zero, false)
  else (p.negative, false)

/- The relative-jump branch of Processor::short_op: the 13-bit excess-4096
offset field is (instr & 0xfff0) >> 3; the new PC is the wrapping signed
add, stored minus two to compensate the post-increment; the link write,
when requested, is the unchecked addition PC + 2 stored directly into
register 14. -/
def Processor.rjmp (p : Processor) (instr : Nat) : Option Processor :=
  let tl := p.rjmpTL instr
  if tl.1 then
    let offset_corrected : Int := (((instr &&& 0xfff0) >>> 3 : Nat) : Int) - 4096
    let new_pc : Nat :=
      Int.toNat (((p.registers (regIdx 15) : Int) + offset_corrected) % 65536)
    if tl.2 then
      (checkedAdd16 (p.registers (regIdx 15)) 2).map fun link =>
        let regs := Function.update (Function.update p.registers (regIdx 14) link)
          (regIdx 15) ((new_pc + 65534) % 65536)
        { p with registers := regs }
    else
      let regs := Function.update p.registers (regIdx 15) ((new_pc + 65534) % 65536)
      some { p with registers := regs }
  else some p

/- Processor::short_op: ld/st for low bits 01xx, relative jump for 11xx,
otherwise the immediate-register group (sign-extended load, ldh, adi,
sbi). -/
def Processor.short_op {M : Type} (mo : MemOps M) (p : Processor) (m : M)
    (instr : Nat) : Option (Processor × M) :=
  if instr &&& 12 = 4 then
    some (Processor.ld_st mo p m instr ((instr &&& 0xf000) >>> 12)
      ((instr &&& 0x0f00) >>> 8) ((instr &&& 0x00f0) >>> 4))
  else if instr &&& 12 = 12 then
    (p.rjmp instr).map fun q => (q, m)
  else
    let rd := (instr &&& 0xf0) >>> 4
    let v0 := (instr &&& 0xff00) >>> 8
    if instr &&& 3 = 0 then some (p.write_reg rd (sext8 v0), m)
    else if instr &&& 3 = 1 then
      some (p.write_reg rd ((p.read_reg rd &&& 0xff) ||| (instr &&& 0xff00)), m)
    else if instr &&& 3 = 2 then
      let nc := carrying_add (p.read_reg rd) v0 false
      some (({ p with carry := nc.2 } : Processor).write_reg rd nc.1, m)
    else
      let nb := borrowing_sub (p.read_reg rd) v0 false
      some (({ p with carry := !nb.2 } : Processor).write_reg rd nb.1, m)

/- Processor::do_instruction: short opcodes are bit3 = 0 or low bits 11xx;
long opcodes dispatch on the low nibble and bits 6..7. -/
def Processor.do_instruction {M : Type} (mo : MemOps M) (p : Processor)
    (instr : Nat) (m : M) : Option (Processor × M) :=
  if instr &&& 8 = 0 ∨ instr &&& 12 = 12 then
    Processor.short_op mo p m instr
  else
    let r1 := (instr &&& 0xf000) >>> 12
    let r2 := (instr &&& 0x0f00) >>> 8
    if instr &&& 0xf = 8 then
      if (instr &&& 0xc0) >>> 6 = 0 then
        (p.jump instr r1 r2).map fun q => (q, m)
      else if (instr &&& 0xc0) >>> 6 = 1 then
        some (Processor.misc mo p instr r1 r2 m)
      else if (instr &&& 0xc0) >>> 6 = 2 then
        some (Processor.movement mo p instr r1 r2 m)
      else if instr &&& 0xf0 = 0xc0 then some (Processor.nmi mo p m)
      else some (p, m)
    else if instr &&& 0xf = 9 then some (p.arithmetic instr r1 r2, m)
    else some (p, m)

/- The should_write_flags advance performed at the top of
Processor::clock. -/
def Processor.cycleFlags (p : Processor) : Processor :=
  { p with should_write_flags := p.should_write_flags.cycle }

/- The wrapping post-increment of PC performed at the bottom of
Processor::clock. -/
def Processor.bumpPC (p : Processor) : Processor :=
  let regs := Function.update p.registers (regIdx 15) ((p.registers (regIdx 15) + 2) % 65536)
  { p with registers := regs }

/- Processor::clock: fetch the instruction big-endian at PC, advance the
should_write_flags machine one step, execute, then post-increment PC by
two wrapping. -/
def Processor.clock {M : Type} (mo : MemOps M) (p : Processor) (m : M) :
    Option (Processor × M) :=
  let r := mo.read m (p.registers (regIdx 15))
  (Processor.do_instruction mo p.cycleFlags (256 * r.1.1 + r.1.2) r.2).map fun x =>
    (x.1.bumpPC, x.2)

/- The Serial device of mem_map.rs.  The host terminal handles are
modelled by out (bytes written so far); the bytes available on host
input at a tick are passed to Serial.clock as an argument. -/
structure Serial where
  buf : List Nat
  cycles_since_first_byte : Nat
  out : List Nat
deriving DecidableEq

/- Serial::new. -/
def Serial.new : Serial := { buf := [], cycles_since_first_byte := 0, out := [] }

/- Serial::read: pop the front byte (0xffff when empty) and return its
little-endian byte pair; whenever the FIFO is empty afterwards the
cycles_since_first_byte counter is reset. -/
def Serial.read (s : Serial) : (Nat × Nat) × Serial :=
  match s.buf with
  | [] => ((255, 255), { s with cycles_since_first_byte := 0 })
  | b :: rest =>
      ((b % 256, b / 256),
       { s with buf := rest,
                cycles_since_first_byte :=
                  if rest.isEmpty then 0 else s.cycles_since_first_byte })

/- Serial::write: emit the low byte of the pair to the host output. -/
def Serial.write (s : Serial) (b : Nat × Nat) : Serial :=
  { s with out := s.out ++ [b.1] }

/- Serial::clock: drain the available host bytes into the FIFO up to
capacity 16, bump cycles_since_first_byte when the FIFO is non-empty,
and raise an IRQ when four bytes are buffered or the counter hits 16. -/
def Serial.clock (s : Serial) (input : List Nat) : Bool × Serial :=
  let buf1 := input.foldl (fun b x => if 16 ≤ b.length then b else b ++ [x]) s.buf
  let cyc := if buf1.isEmpty then s.cycles_since_first_byte
             else s.cycles_since_first_byte + 1
  (decide (4 ≤ buf1.length) || decide (16 ≤ cyc),
   { s with buf := buf1, cycles_since_first_byte := cyc })

/- The MemoryMap struct of mem_map.rs: 32 KiB of RAM, the serial device,
4 KiB of ROM at 0xf000, and the exit latch.  The byte arrays are
modelled as functions from addresses to byte values. -/
structure MemoryMap where
  main_mem : Nat → Nat
  serial : Serial
  rom : Nat → Nat
  should_exit : Bool

/- MemoryMap::new. -/
def MemoryMap.new (rom : Nat → Nat) : MemoryMap :=
  { main_mem := fun _ => 0, serial := Serial.new, rom := rom,
    should_exit := false }

/- MemoryMap::read: RAM below 0x8000 (a high byte falling off the end of
RAM reads 0), ROM at and above 0xf000, the serial FIFO at SERIAL_RX =
0xe002, and 0 everywhere else. -/
def MemoryMap.read (mm : MemoryMap) (addr : Nat) : (Nat × Nat) × MemoryMap :=
  if addr < 32768 then
    ((mm.main_mem addr, if addr + 1 < 32768 then mm.main_mem (addr + 1) else 0),
     mm)
  else if 0xf000 ≤ addr then
    ((mm.rom (addr - 0xf000),
      if addr - 0xf000 + 1 < 4096 then mm.rom (addr - 0xf000 + 1) else 0),
     mm)
  else if addr = 0xe002 then
    let r := mm.serial.read
    (r.1, { mm with serial := r.2 })
  else ((0, 0), mm)

/- MemoryMap::read_8. -/
def MemoryMap.read_8 (mm : MemoryMap) (addr : Nat) : Nat × MemoryMap :=
  if addr < 32768 then (mm.main_mem addr, mm)
  else if 0xf000 ≤ addr then (mm.rom (addr - 0xf000), mm)
  else if addr = 0xe002 then
    let r := mm.serial.read
    (r.1.1, { mm with serial := r.2 })
  else (0, mm)

/- MemoryMap::write: a little-endian store to RAM (the high byte is
dropped when it would fall outside RAM), the serial transmitter at
SERIAL_TX = 0xe000, the exit latch at EXIT = 0xe100; other addresses
ignore the write. -/
def MemoryMap.write (mm : MemoryMap) (addr : Nat) (val : Nat × Nat) :
    MemoryMap :=
  if addr < 32768 then
    let m1 := Function.update mm.main_mem addr val.1
    let m2 := if addr + 1 < 32768 then Function.update m1 (addr + 1) val.2 else m1
    { mm with main_mem := m2 }
  else if addr = 0xe000 then { mm with serial := mm.serial.write val }
  else if addr = 0xe100 then { mm with should_exit := true }
  else mm

/- MemoryMap::write_8. -/
def MemoryMap.write_8 (mm : MemoryMap) (addr val : Nat) : MemoryMap :=
  if addr < 32768 then
    { mm with main_mem := Function.update mm.main_mem addr val }
  else if addr = 0xe000 then { mm with serial := mm.serial.write (val, 0) }
  else if addr = 0xe100 then { mm with should_exit := true }
  else mm

/- MemoryMap::clock: delegate to the serial device; the Bool is the IRQ
request surfaced to the harness. -/
def MemoryMap.clock (mm : MemoryMap) (input : List Nat) : Bool × MemoryMap :=
  let r := mm.serial.clock input
  (r.1, { mm with serial := r.2 })

/- The Memory-trait instance for MemoryMap. -/
def memMapOps : MemOps MemoryMap :=
  { read := MemoryMap.read, read8 := MemoryMap.read_8,
    write := MemoryMap.write, write8 := MemoryMap.write_8 }

/- One operation of the Memory interface of MemoryMap, used to state
invariants over arbitrary sequences of operations. -/
inductive MemOp where
  | rdw (addr : Nat)
  | rdb (addr : Nat)
  | wrw (addr : Nat) (val : Nat × Nat)
  | wrb (addr : Nat) (val : Nat)
  | clk (input : List Nat)

/- The state transition performed on the MemoryMap by one operation
(outputs discarded). -/
def MemoryMap.applyOp (mm : MemoryMap) : MemOp → MemoryMap
  | .rdw a => (mm.read a).2
  | .rdb a => (mm.read_8 a).2
  | .wrw a v => mm.write a v
  | .wrb a v => mm.write_8 a v
  | .clk i => (mm.clock i).2

/- Concrete states used to evaluate the theorems below on explicit
inputs. -/

/- A processor about to execute the 16-bit load 0x1024 (ra = 1, ro = 0,
rd = 2) at PC = 0x100, with R1 = 0x200. -/
def pLoad : Processor :=
  { registers := fun i => if (i : Nat) = 15 then 0x100 else if (i : Nat) = 1 then 0x200 else 0,
    zero := false, negative := false, carry := false, interrupts := false,
    iret := 0, fault := false, should_write_flags := .Yes }

/- RAM holding the load instruction 0x1024 big-endian at 0x100 and the
little-endian word 0xabcd at 0x200. -/
def mmLoad : MemoryMap :=
  { main_mem := fun a => if a = 0x100 then 0x10 else if a = 0x101 then 0x24 else if a = 0x200 then 0xcd else if a = 0x201 then 0xab else 0,
    serial := Serial.new, rom := fun _ => 0, should_exit := false }

/- A processor about to execute the 16-bit store 0x1235 (ra = 1, ro = 2,
rd = 3) at PC = 0x100, with R1 = 0x200, R2 = 0x10, R3 = 0xabcd. -/
def pStore : Processor :=
  { registers := fun i => if (i : Nat) = 15 then 0x100 else if (i : Nat) = 1 then 0x200 else if (i : Nat) = 2 then 0x10 else if (i : Nat) = 3 then 0xabcd else 0,
    zero := false, negative := false, carry := false, interrupts := false,
    iret := 0, fault := false, should_write_flags := .Yes }

/- RAM holding the store instruction 0x1235 big-endian at 0x100. -/
def mmStore : MemoryMap :=
  { main_mem := fun a => if a = 0x100 then 0x12 else if a = 0x101 then 0x35 else 0,
    serial := Serial.new, rom := fun _ => 0, should_exit := false }

/- RAM holding the 8-bit load instruction 0x1026 (ra = 1, ro = 0,
rd = 2) big-endian at 0x100 and the byte 0xcd at 0x200. -/
def mmLoad8 : MemoryMap :=
  { main_mem := fun a => if a = 0x100 then 0x10 else if a = 0x101 then 0x26 else if a = 0x200 then 0xcd else 0,
    serial := Serial.new, rom := fun _ => 0, should_exit := false }

/- RAM holding the 8-bit store instruction 0x1237 (ra = 1, ro = 2,
rd = 3) big-endian at 0x100. -/
def mmStore8 : MemoryMap :=
  { main_mem := fun a => if a = 0x100 then 0x12 else if a = 0x101 then 0x37 else 0,
    serial := Serial.new, rom := fun _ => 0, should_exit := false }

/- A processor about to execute the PUSH 0x1288 (rs = 1, rd = 2) at
PC = 0x100, with the pointer R1 = 0x300 and the value R2 = 0xbeef. -/
def pPush : Processor :=
  { registers := fun i => if (i : Nat) = 15 then 0x100 else if (i : Nat) = 1 then 0x300 else if (i : Nat) = 2 then 0xbeef else 0,
    zero := false, negative := false, carry := false, interrupts := false,
    iret := 0, fault := false, should_write_flags := .Yes }

/- RAM holding the push instruction 0x1288 big-endian at 0x100. -/
def mmPush : MemoryMap :=
  { main_mem := fun a => if a = 0x100 then 0x12 else if a = 0x101 then 0x88 else 0,
    serial := Serial.new, rom := fun _ => 0, should_exit := false }

/- A processor at PC = 0x100 about to execute the unconditional relative
jump 0x801c, whose offset field 0x1002 encodes the signed offset +2. -/
def pRjmp : Processor :=
  { registers := fun i => if (i : Nat) = 15 then 0x100 else 0,
    zero := false, negative := false, carry := false, interrupts := false,
    iret := 0, fault := false, should_write_flags := .Yes }

/- RAM holding the relative jump 0x801c big-endian at 0x100. -/
def mmRjmp : MemoryMap :=
  { main_mem := fun a => if a = 0x100 then 0x80 else if a = 0x101 then 0x1c else 0,
    serial := Serial.new, rom := fun _ => 0, should_exit := false }

/- A processor with interrupts enabled and flag writes allowed. -/
def pIrqOn : Processor :=
  { registers := fun i => if (i : Nat) = 15 then 0x100 else 0,
    zero := false, negative := false, carry := false, interrupts := true,
    iret := 0, fault := false, should_write_flags := .Yes }

/- A processor with interrupts enabled but should_write_flags still No. -/
def pIrqBlocked : Processor :=
  { registers := fun i => if (i : Nat) = 15 then 0x100 else 0,
    zero := false, negative := false, carry := false, interrupts := true,
    iret := 0, fault := false, should_write_flags := .No }

/- A memory map whose ROM holds the IRQ vector 0x3000 little-endian at
IRQ_VEC = 0xfffa. -/
def mmVec : MemoryMap :=
  { main_mem := fun _ => 0, serial := Serial.new,
    rom := fun a => if a = 0xffa then 0x00 else if a = 0xffb then 0x30 else 0,
    should_exit := false }

/- A processor whose PC sits at 0xfffe, where the unchecked link addition
PC + 2 overflows. -/
def pEdge : Processor :=
  { registers := fun i => if (i : Nat) = 15 then 0xfffe else 0,
    zero := false, negative := false, carry := false, interrupts := false,
    iret := 0, fault := false, should_write_flags := .Yes }

/- An all-zero memory map. -/
def mmZero : MemoryMap :=
  { main_mem := fun _ => 0, serial := Serial.new, rom := fun _ => 0,
    should_exit := false }

/- A memory map whose exit latch is already set. -/
def mmExit : MemoryMap :=
  { main_mem := fun _ => 0, serial := Serial.new, rom := fun _ => 0,
    should_exit := true }

/- A serial device holding the single byte 7. -/
def sOne : Serial := { buf := [7], cycles_since_first_byte := 5, out := [] }

/- A serial device with an empty FIFO. -/
def sEmpty : Serial := { buf := [], cycles_since_first_byte := 3, out := [] }

/- Helper lemmas shared by the claim theorems. -/

/- Reading a register other than PC and R0 is unchanged by the PC
post-increment. -/
theorem read_reg_bumpPC (p : Processor) (id : Nat) (h0 : id ≠ 0)
    (h15 : regIdx id ≠ regIdx 15) : p.bumpPC.read_reg id = p.read_reg id := by
  simp [Processor.bumpPC, Processor.read_reg, h0, Function.update_apply, h15]

/- Reading back the register just stored by write_reg yields the stored
value (for a register other than R0). -/
theorem read_reg_write_reg_self (p : Processor) (id val : Nat) (h0 : id ≠ 0) :
    (p.write_reg id val).read_reg id = val := by
  simp only [Processor.write_reg, Processor.write_reg_no_flags]
  split <;> simp [Processor.read_reg, h0, Function.update_same]

/- Reading back the register just stored by write_reg_no_flags yields the
stored value (for a register other than R0). -/
theorem read_reg_write_reg_no_flags_self (p : Processor) (id val : Nat)
    (h0 : id ≠ 0) :
    (p.write_reg_no_flags id val).read_reg id = val := by
  simp [Processor.write_reg_no_flags, Processor.read_reg, h0, Function.update_same]

/- Unwinding the fetch stage of Processor::clock once the instruction
word at PC is known. -/
theorem clock_unfold {M : Type} (mo : MemOps M) (p : Processor) (m : M)
    (instr : Nat)
    (hfetch : (mo.read m (p.registers (regIdx 15))).1 = (instr / 256, instr % 256)) :
    Processor.clock mo p m =
      (Processor.do_instruction mo p.cycleFlags instr
        (mo.read m (p.registers (regIdx 15))).2).map fun x => (x.1.bumpPC, x.2) := by
  simp only [Processor.clock]
  rw [hfetch]
  dsimp only
  rw [Nat.div_add_mod]

/-- C5 counterexample: the source state machine moves No to No3 in a
single step, not to No2, and reaches Yes from No after only two steps. -/
theorem shouldWriteFlags_cycle_skips_No2 :
    ShouldWriteFlags.cycle ShouldWriteFlags.No = ShouldWriteFlags.No3 ∧
    ShouldWriteFlags.cycle ShouldWriteFlags.No ≠ ShouldWriteFlags.No2 ∧
    ShouldWriteFlags.cycle (ShouldWriteFlags.cycle ShouldWriteFlags.No) =
      ShouldWriteFlags.Yes := by
  decide

/-- C5 (amended): the should_write_flags machine advances one step per
call following the chain No→No3→Yes→Yes, with the orphaned No2 state
also mapping to No3; two steps suffice to reach Yes from No. -/
theorem shouldWriteFlags_cycle_table :
    ShouldWriteFlags.cycle ShouldWriteFlags.No = ShouldWriteFlags.No3 ∧
    ShouldWriteFlags.cycle ShouldWriteFlags.No2 = ShouldWriteFlags.No3 ∧
    ShouldWriteFlags.cycle ShouldWriteFlags.No3 = ShouldWriteFlags.Yes ∧
    ShouldWriteFlags.cycle ShouldWriteFlags.Yes = ShouldWriteFlags.Yes ∧
    ShouldWriteFlags.cycle (ShouldWriteFlags.cycle ShouldWriteFlags.No) =
      ShouldWriteFlags.Yes := by
  decide

/-- C7: for every address a < 0x7fff and 16-bit word w, writing w
little-endian at a and reading a back through the memory map returns
exactly w: the round trip through RAM is the identity. -/
theorem ram_write_read_round_trip (mm : MemoryMap) (a w : Nat)
    (ha : a < 0x7fff) (hw : w < 65536) :
    le16 ((MemoryMap.write mm a (toLeBytes w)).read a).1 = w := by
  have h1 : a < 32768 := by omega
  have h2 : a + 1 < 32768 := by omega
  simp [MemoryMap.write, MemoryMap.read, toLeBytes, le16, h1, h2,
    Function.update_apply]
  omega

/-- C7 witness: the round trip at address 5 with the word 0x1234. -/
theorem ram_write_read_round_trip_witness :
    le16 ((MemoryMap.write mmZero 5 (toLeBytes 0x1234)).read 5).1 = 0x1234 :=
  ram_write_read_round_trip mmZero 5 0x1234 (by decide) (by decide)

/-- C8: Serial::read pops the front byte of a non-empty FIFO and returns
it zero-extended to 16 bits, returns 0xffff on an empty FIFO, and resets
cycles_since_first_byte to 0 whenever the FIFO is empty after the
read. -/
theorem serial_read_spec (s : Serial) (b : Nat) (rest : List Nat) :
    (s.buf = b :: rest → b < 256 →
      le16 (Serial.read s).1 = b ∧ (Serial.read s).2.buf = rest) ∧
    (s.buf = [] → le16 (Serial.read s).1 = 65535) ∧
    ((Serial.read s).2.buf = [] →
      (Serial.read s).2.cycles_since_first_byte = 0) := by
  refine ⟨?_, ?_, ?_⟩
  · intro hb hlt
    simp only [Serial.read, hb, le16]
    exact ⟨by omega, trivial⟩
  · intro hb
    simp only [Serial.read, hb, le16]
  · intro h
    rcases hb : s.buf with _ | ⟨x, xs⟩
    · simp only [Serial.read, hb]
    · simp only [Serial.read, hb] at h ⊢
      simp only [h, List.isEmpty_nil, if_true]

/-- C8 witness: reading the one-byte FIFO [7] returns 7, empties the
FIFO and resets the counter; reading an empty FIFO returns 0xffff. -/
theorem serial_read_spec_witness :
    le16 (Serial.read sOne).1 = 7 ∧ (Serial.read sOne).2.buf = [] ∧
    (Serial.read sOne).2.cycles_since_first_byte = 0 ∧
    le16 (Serial.read sEmpty).1 = 65535 := by
  have h1 := serial_read_spec sOne 7 []
  have h2 := serial_read_spec sEmpty 0 []
  exact ⟨(h1.1 rfl (by decide)).1, (h1.1 rfl (by decide)).2,
    h1.2.2 (h1.1 rfl (by decide)).2, h2.2.1 rfl⟩

/-- C10: the exit latch of the memory map is monotone: a write to EXIT =
0xe100 sets it, and no read, write, byte access or clock ever clears it
once set. -/
theorem should_exit_monotone (mm : MemoryMap) (op : MemOp) (v : Nat × Nat)
    (h : mm.should_exit = true) :
    (mm.applyOp op).should_exit = true ∧
    (MemoryMap.write mm 0xe100 v).should_exit = true := by
  constructor
  · cases op <;>
      simp only [MemoryMap.applyOp, MemoryMap.read, MemoryMap.read_8,
        MemoryMap.write, MemoryMap.write_8, MemoryMap.clock] <;>
      (try split_ifs) <;> simp [h]
  · simp [MemoryMap.write]

/-- C10 witness: with the latch already set, a RAM write and a serial
clock keep it set, and a write to the exit address sets it. -/
theorem should_exit_monotone_witness :
    (mmExit.applyOp (MemOp.wrw 5 (1, 2))).should_exit = true ∧
    (MemoryMap.write mmExit 0xe100 (0, 0)).should_exit = true :=
  should_exit_monotone mmExit (MemOp.wrw 5 (1, 2)) (0, 0) rfl

/-- C2 counterexample: with interrupts enabled but should_write_flags
still No, irq() leaves the processor completely unchanged, so PC (0x100)
is not replaced by the IRQ vector word (0x3000): enabled interrupts
alone do not suffice for interrupt entry. -/
theorem irq_blocked_despite_interrupts_enabled :
    pIrqBlocked.interrupts = true ∧
    Processor.irq memMapOps pIrqBlocked mmVec = (pIrqBlocked, mmVec) ∧
    (Processor.irq memMapOps pIrqBlocked mmVec).1.registers (regIdx 15) = 0x100 ∧
    le16 ((memMapOps.read mmVec 0xfffa).1) = 0x3000 ∧ (0x100 : Nat) ≠ 0x3000 := by
  refine ⟨rfl, rfl, by decide, by decide, by decide⟩

/-- C2 (amended): irq() changes nothing when interrupts_enabled is false
or should_write_flags is not Yes; when interrupts_enabled is true and
should_write_flags is Yes it replaces PC by the little-endian word at
IRQ_VEC = 0xfffa, sets iret to PC - 2 (mod 2^16, compensating the
post-increment), and clears interrupts_enabled. -/
theorem irq_spec {M : Type} (mo : MemOps M) (p : Processor) (m : M) :
    (p.interrupts = false → Processor.irq mo p m = (p, m)) ∧
    (p.should_write_flags ≠ ShouldWriteFlags.Yes →
      Processor.irq mo p m = (p, m)) ∧
    (p.interrupts = true → p.should_write_flags = ShouldWriteFlags.Yes →
      (Processor.irq mo p m).1.registers (regIdx 15) = le16 (mo.read m 0xfffa).1 ∧
      (Processor.irq mo p m).1.iret = (p.registers (regIdx 15) + 65534) % 65536 ∧
      (Processor.irq mo p m).1.interrupts = false ∧
      (Processor.irq mo p m).2 = (mo.read m 0xfffa).2) := by
  refine ⟨?_, ?_, ?_⟩
  · intro h
    simp [Processor.irq, h]
  · intro h
    simp [Processor.irq, h]
  · intro h1 h2
    simp [Processor.irq, h1, h2, Function.update_same]

/-- C2 witness: with interrupts enabled and should_write_flags Yes on
pIrqOn, irq() loads PC = 0x3000 from the vector, saves iret = 0xfe and
clears the enable; with interrupts disabled nothing changes. -/
theorem irq_spec_witness :
    (Processor.irq memMapOps pIrqOn mmVec).1.registers (regIdx 15) = 0x3000 ∧
    (Processor.irq memMapOps pIrqOn mmVec).1.iret = 0xfe ∧
    (Processor.irq memMapOps pIrqOn mmVec).1.interrupts = false ∧
    Processor.irq memMapOps Processor.new mmVec = (Processor.new, mmVec) := by
  have h := irq_spec memMapOps pIrqOn mmVec
  have h2 := (h.2.2 rfl rfl)
  exact ⟨h2.1.trans (by decide), h2.2.1.trans (by decide), h2.2.2.1,
    (irq_spec memMapOps Processor.new mmVec).1 rfl⟩

/-- C9: every taken jump, and every taken relative jump of the linking
variant, computes the link value with the unchecked 16-bit addition
PC + 2: it completes exactly when PC ≤ 0xfffd, and for PC = 0xfffe or
PC = 0xffff the addition overflows (modelled as none, a panic in checked
builds) instead of wrapping. -/
theorem link_add_overflow (p : Processor) (instr ra rl : Nat)
    (hcond : Processor.jumpCond p instr = true)
    (hlv : instr &&& 3 = 1) :
    (p.registers (regIdx 15) ≤ 0xfffd →
      (Processor.jump p instr ra rl).isSome = true ∧
      (Processor.rjmp p instr).isSome = true) ∧
    ((p.registers (regIdx 15) = 0xfffe ∨ p.registers (regIdx 15) = 0xffff) →
      Processor.jump p instr ra rl = none ∧ Processor.rjmp p instr = none) := by
  constructor
  · intro hle
    have hok : p.registers (regIdx 15) + 2 ≤ 65535 := by omega
    constructor
    · simp [Processor.jump, hcond, checkedAdd16, hok]
    · simp [Processor.rjmp, Processor.rjmpTL, hlv, checkedAdd16, hok]
  · intro hor
    have hbad : ¬(p.registers (regIdx 15) + 2 ≤ 65535) := by
      rcases hor with h | h <;> omega
    constructor
    · simp [Processor.jump, hcond, checkedAdd16, hbad]
    · simp [Processor.rjmp, Processor.rjmpTL, hlv, checkedAdd16, hbad]

/-- C9 witness: the linking jump and relative jump overflow at
PC = 0xfffe and complete at PC = 0x100. -/
theorem link_add_overflow_witness :
    Processor.jump pEdge 1 0 0 = none ∧ Processor.rjmp pEdge 1 = none ∧
    (Processor.jump pRjmp 1 0 0).isSome = true ∧
    (Processor.rjmp pRjmp 1).isSome = true := by
  have hE := link_add_overflow pEdge 1 0 0 (by decide) (by decide)
  have hA := link_add_overflow pRjmp 1 0 0 (by decide) (by decide)
  have hEc := hE.2 (Or.inl (by decide))
  have hAc := hA.1 (by decide)
  exact ⟨hEc.1, hEc.2, hAc.1, hAc.2⟩

/- Further helper lemmas for the instruction-level theorems. -/

/- Reading a register is unaffected by the should_write_flags advance. -/
theorem read_reg_cycleFlags (p : Processor) (id : Nat) :
    p.cycleFlags.read_reg id = p.read_reg id := rfl

/- The relative-jump taken/link decode ignores should_write_flags. -/
theorem rjmpTL_cycleFlags (p : Processor) (instr : Nat) :
    Processor.rjmpTL p.cycleFlags instr = Processor.rjmpTL p instr := rfl

/- The register file is unaffected by the should_write_flags advance. -/
theorem cycleFlags_registers (p : Processor) :
    p.cycleFlags.registers = p.registers := rfl

/- The PC seen after the post-increment. -/
theorem bumpPC_pc (p : Processor) :
    p.bumpPC.registers (regIdx 15) = (p.registers (regIdx 15) + 2) % 65536 := by
  simp [Processor.bumpPC, Function.update_same]

/- The wrapping decrement by two followed by the wrapping post-increment
by two is the identity on 16-bit values. -/
theorem wrap_sub2_add2 (x : Nat) (h : x < 65536) :
    ((x + 65534) % 65536 + 2) % 65536 = x := by omega

/- A value reduced modulo 65536 over the integers is a 16-bit value. -/
theorem toNat_emod65536_lt (a : Int) : Int.toNat (a % 65536) < 65536 := by
  have h1 : 0 ≤ a % 65536 := Int.emod_nonneg a (by norm_num)
  have h2 : a % 65536 < 65536 := Int.emod_lt_of_pos a (by norm_num)
  omega

/-- C1 counterexample: the 16-bit load executed at tick T (instruction
0x1024, loading the word 0xabcd from address 0x200 into R2) changes R2
from 0 to 0xabcd within tick T itself, so the loaded value is already
visible to read_reg for the instruction executing at tick T+1 — there is
no delay-slot queue deferring it to tick T+2. -/
theorem load_visible_immediately_counterexample :
    pLoad.read_reg 2 = 0 ∧
    (Processor.clock memMapOps pLoad mmLoad).map (fun x => x.1.read_reg 2) =
      some 0xabcd ∧
    (0xabcd : Nat) ≠ 0 := by
  exact ⟨by decide, by decide, by decide⟩

/-- C1 (amended): for every load instruction — 16-bit (bit 1 = 0) or
8-bit (bit 1 = 1) — executed at clock tick T, the loaded value (the
little-endian word, or the byte zero-extended) is written straight into
the destination register during the execute phase of tick T (there is
no delay-slot queue), so it is visible to read_reg from tick T+1
onward. -/
theorem load_writes_back_immediately {M : Type} (mo : MemOps M)
    (p : Processor) (m : M) (instr : Nat)
    (hfetch : (mo.read m (p.registers (regIdx 15))).1 = (instr / 256, instr % 256))
    (h8 : instr &&& 8 = 0) (h12 : instr &&& 12 = 4)
    (h1 : instr &&& 1 = 0)
    (hrd0 : (instr &&& 0xf0) >>> 4 ≠ 0)
    (hrd15 : regIdx ((instr &&& 0xf0) >>> 4) ≠ regIdx 15) :
    (Processor.clock mo p m).map (fun x => x.1.read_reg ((instr &&& 0x00f0) >>> 4)) =
      some (if instr &&& 2 = 0
        then le16 (mo.read (mo.read m (p.registers (regIdx 15))).2
          ((p.read_reg ((instr &&& 0xf000) >>> 12) + p.read_reg ((instr &&& 0x0f00) >>> 8)) % 65536)).1
        else (mo.read8 (mo.read m (p.registers (regIdx 15))).2
          ((p.read_reg ((instr &&& 0xf000) >>> 12) + p.read_reg ((instr &&& 0x0f00) >>> 8)) % 65536)).1) := by
  rw [clock_unfold mo p m instr hfetch]
  by_cases h2 : instr &&& 2 = 0
  · simp only [Processor.do_instruction, h8, true_or, if_true, Processor.short_op,
      h12, eq_self_iff_true, Processor.ld_st, h2, h1, Option.map_map, Option.map_some,
      read_reg_cycleFlags]
    simp only [Option.map_some, Option.map_some', Function.comp_apply, Option.some.injEq]
    rw [read_reg_bumpPC _ _ hrd0 hrd15, read_reg_write_reg_self _ _ _ hrd0]
  · simp only [Processor.do_instruction, h8, true_or, if_true, Processor.short_op,
      h12, eq_self_iff_true, Processor.ld_st, h2, h1, if_false, Option.map_map,
      Option.map_some, read_reg_cycleFlags]
    simp only [Option.map_some, Option.map_some', Function.comp_apply, Option.some.injEq]
    rw [read_reg_bumpPC _ _ hrd0 hrd15, read_reg_write_reg_self _ _ _ hrd0]

/-- C1 witness: the 16-bit load 0x1024 on pLoad and mmLoad delivers
0xabcd to R2 at the end of tick T, and the 8-bit load 0x1026 on pLoad
and mmLoad8 delivers the zero-extended byte 0xcd. -/
theorem load_writes_back_immediately_witness :
    (Processor.clock memMapOps pLoad mmLoad).map
      (fun x => x.1.read_reg ((0x1024 &&& 0x00f0) >>> 4)) = some 0xabcd ∧
    (Processor.clock memMapOps pLoad mmLoad8).map
      (fun x => x.1.read_reg ((0x1026 &&& 0x00f0) >>> 4)) = some 0xcd := by
  constructor
  · rw [load_writes_back_immediately memMapOps pLoad mmLoad 0x1024 (by decide)
      (by decide) (by decide) (by decide) (by decide) (by decide)]
    decide
  · rw [load_writes_back_immediately memMapOps pLoad mmLoad8 0x1026 (by decide)
      (by decide) (by decide) (by decide) (by decide) (by decide)]
    decide

/-- C3 counterexample: the 16-bit store 0x1235 executed with base
R1 = 0x200 and offset R2 = 0x10 writes its value to the effective
address 0x210 = R1 + R2, and leaves the base address 0x200 untouched:
stores do use the offset register. -/
theorem store_uses_offset_counterexample :
    pStore.read_reg 1 = 0x200 ∧ pStore.read_reg 2 = 0x10 ∧
    (Processor.clock memMapOps pStore mmStore).map
      (fun x => (x.2.main_mem 0x210, x.2.main_mem 0x211, x.2.main_mem 0x200, x.2.main_mem 0x201)) =
      some (0xcd, 0xab, 0, 0) := by
  exact ⟨by decide, by decide, by decide⟩

/-- C3 (amended): for every short-op store instruction (bit 0 = 1),
16-bit or 8-bit, the memory write is performed at the effective address
R[ra] + R[ro] (mod 2^16) — exactly the address loads use — with the
stored value R[rd] in little-endian byte order (the low byte alone for
the 8-bit form); the register file is only touched by the PC
post-increment. -/
theorem store_uses_effective_address {M : Type} (mo : MemOps M)
    (p : Processor) (m : M) (instr : Nat)
    (hfetch : (mo.read m (p.registers (regIdx 15))).1 = (instr / 256, instr % 256))
    (h8 : instr &&& 8 = 0) (h12 : instr &&& 12 = 4)
    (h1 : instr &&& 1 = 1) :
    Processor.clock mo p m = some (p.cycleFlags.bumpPC,
      if instr &&& 2 = 0
      then mo.write (mo.read m (p.registers (regIdx 15))).2
        ((p.read_reg ((instr &&& 0xf000) >>> 12) + p.read_reg ((instr &&& 0x0f00) >>> 8)) % 65536)
        (toLeBytes (p.read_reg ((instr &&& 0x00f0) >>> 4)))
      else mo.write8 (mo.read m (p.registers (regIdx 15))).2
        ((p.read_reg ((instr &&& 0xf000) >>> 12) + p.read_reg ((instr &&& 0x0f00) >>> 8)) % 65536)
        (p.read_reg ((instr &&& 0x00f0) >>> 4) % 256)) := by
  rw [clock_unfold mo p m instr hfetch]
  by_cases h2 : instr &&& 2 = 0
  · simp only [Processor.do_instruction, h8, true_or, if_true, Processor.short_op,
      h12, Processor.ld_st, h2, h1, read_reg_cycleFlags, Option.map_some']
    norm_num
  · simp only [Processor.do_instruction, h8, true_or, if_true, Processor.short_op,
      h12, Processor.ld_st, h2, h1, if_false, read_reg_cycleFlags, Option.map_some']
    norm_num

/-- C3 witness: the 16-bit store 0x1235 on pStore and mmStore puts the
little-endian bytes of R3 = 0xabcd at 0x210 and 0x211, and the 8-bit
store 0x1237 on pStore and mmStore8 puts only the low byte 0xcd at
0x210, leaving 0x211 untouched. -/
theorem store_uses_effective_address_witness :
    (Processor.clock memMapOps pStore mmStore).map
      (fun x => (x.2.main_mem 0x210, x.2.main_mem 0x211)) = some (0xcd, 0xab) ∧
    (Processor.clock memMapOps pStore mmStore8).map
      (fun x => (x.2.main_mem 0x210, x.2.main_mem 0x211)) = some (0xcd, 0) := by
  constructor
  · rw [store_uses_effective_address memMapOps pStore mmStore 0x1235 (by decide)
      (by decide) (by decide) (by decide)]
    decide
  · rw [store_uses_effective_address memMapOps pStore mmStore8 0x1237 (by decide)
      (by decide) (by decide) (by decide)]
    decide

/-- C4 counterexample: the PUSH 0x1288 executed with pointer R1 = 0x300
and value R2 = 0xbeef writes the value at 0x300 and then sets
R1 = 0x2fe = R1 - 2, not R1 + 2: the pointer is decremented after the
write. -/
theorem push_decrements_counterexample :
    (Processor.clock memMapOps pPush mmPush).map
      (fun x => (x.1.read_reg 1, x.2.main_mem 0x300, x.2.main_mem 0x301)) =
      some (0x2fe, 0xef, 0xbe) ∧
    (0x2fe : Nat) ≠ 0x302 := by
  exact ⟨by decide, by decide⟩

/-- C4 (amended): for every PUSH instruction with pointer register rs
(not R0 or PC) and source register rd, the processor writes R[rd]
little-endian to memory at address R[rs] and then sets rs to
(R[rs] - 2) mod 2^16 — the stack grows toward lower addresses — with no
zero, negative or carry flag update from the pointer write. -/
theorem push_spec {M : Type} (mo : MemOps M) (p : Processor) (m : M)
    (instr : Nat)
    (hfetch : (mo.read m (p.registers (regIdx 15))).1 = (instr / 256, instr % 256))
    (hA : ¬(instr &&& 8 = 0)) (hB : ¬(instr &&& 12 = 12))
    (hf : instr &&& 0xf = 8) (h6 : (instr &&& 0xc0) >>> 6 = 2)
    (h4 : (instr &&& 0x30) >>> 4 = 0)
    (hr0 : (instr &&& 0xf000) >>> 12 ≠ 0)
    (hr15 : regIdx ((instr &&& 0xf000) >>> 12) ≠ regIdx 15) :
    (Processor.clock mo p m).map
      (fun x => (x.1.read_reg ((instr &&& 0xf000) >>> 12), x.1.zero, x.1.negative, x.1.carry, x.2)) =
    some ((p.read_reg ((instr &&& 0xf000) >>> 12) + 65534) % 65536, p.zero, p.negative, p.carry,
      mo.write (mo.read m (p.registers (regIdx 15))).2 (p.read_reg ((instr &&& 0xf000) >>> 12))
        (toLeBytes (p.read_reg ((instr &&& 0x0f00) >>> 8)))) := by
  rw [clock_unfold mo p m instr hfetch]
  simp only [Processor.do_instruction, hA, hB, false_or, if_false, hf,
    Processor.movement, h6, h4, Processor.push, read_reg_cycleFlags,
    Option.map_map, Option.map_some', Function.comp_apply,
    Option.some.injEq, Prod.mk.injEq]
  norm_num
  refine ⟨?_, rfl, rfl, rfl⟩
  rw [read_reg_bumpPC _ _ hr0 hr15, read_reg_write_reg_no_flags_self _ _ _ hr0]

/-- C4 witness: executing the PUSH 0x1288 on pPush and mmPush stores
0xbeef little-endian at 0x300, decrements R1 to 0x2fe and leaves the
flags untouched. -/
theorem push_spec_witness :
    (Processor.clock memMapOps pPush mmPush).map
      (fun x => (x.1.read_reg ((0x1288 &&& 0xf000) >>> 12), x.1.zero, x.1.negative, x.1.carry, x.2)) =
    some ((pPush.read_reg ((0x1288 &&& 0xf000) >>> 12) + 65534) % 65536, pPush.zero, pPush.negative, pPush.carry,
      memMapOps.write (memMapOps.read mmPush (pPush.registers (regIdx 15))).2
        (pPush.read_reg ((0x1288 &&& 0xf000) >>> 12))
        (toLeBytes (pPush.read_reg ((0x1288 &&& 0x0f00) >>> 8)))) :=
  push_spec memMapOps pPush mmPush 0x1288 (by decide) (by decide) (by decide)
    (by decide) (by decide) (by decide) (by decide) (by decide)

/-- C6: for every taken relative jump executed at PC = p, the PC after
the tick — the address of the next instruction fetched — is
p + (((instr & 0xfff0) >> 3) - 4096) reduced modulo 2^16: the 13-bit
offset field is decoded as excess-4096 and added to the PC of the
jump. -/
theorem rjmp_target {M : Type} (mo : MemOps M) (p : Processor) (m : M)
    (instr : Nat)
    (hfetch : (mo.read m (p.registers (regIdx 15))).1 = (instr / 256, instr % 256))
    (h12 : instr &&& 12 = 12)
    (htaken : (Processor.rjmpTL p instr).1 = true)
    (hlink : (Processor.rjmpTL p instr).2 = true → p.registers (regIdx 15) + 2 ≤ 65535) :
    (Processor.clock mo p m).map (fun x => x.1.registers (regIdx 15)) =
      some (Int.toNat (((p.registers (regIdx 15) : Int) +
        (((instr &&& 0xfff0) >>> 3 : Nat) : Int) - 4096) % 65536)) := by
  rw [clock_unfold mo p m instr hfetch]
  simp only [Processor.do_instruction, h12, eq_self_iff_true, or_true, if_true,
    Processor.short_op, Processor.rjmp, rjmpTL_cycleFlags, htaken]
  rcases hl : (Processor.rjmpTL p instr).2 with _ | _
  · norm_num
    simp only [Option.map_map, Option.map_some', Function.comp_apply,
      Option.some.injEq, bumpPC_pc, Function.update_same, cycleFlags_registers]
    rw [wrap_sub2_add2 _ (toNat_emod65536_lt _), Int.add_sub_assoc]
  · have hok := hlink hl
    norm_num
    simp only [cycleFlags_registers]
    refine ⟨p.registers (regIdx 15) + 2, ?_, ?_⟩
    · simp only [checkedAdd16, if_pos hok]
    · simp only [bumpPC_pc, Function.update_same]
      rw [wrap_sub2_add2 _ (toNat_emod65536_lt _), Int.add_sub_assoc]

/-- C6 witness: the relative jump 0x801c (offset field 0x1002, signed
offset +2) taken at PC = 0x100 makes the next fetch address 0x102. -/
theorem rjmp_target_witness :
    (Processor.clock memMapOps pRjmp mmRjmp).map (fun x => x.1.registers (regIdx 15)) =
      some 0x102 := by
  rw [rjmp_target memMapOps pRjmp mmRjmp 0x801c (by decide) (by decide)
    (by decide) (by decide)]
  decide
